import Mathlib

/-!
Verification development for the blink-backend repository.

The definitions below are shallow embeddings of the Go source:
* `internal/validator/ssrf.go` — `ValidateExecutionURL`, `isLocalhost`,
  `isPrivateIP` (IP addresses are modelled as natural numbers: 32-bit for
  IPv4, 128-bit for IPv6; CIDR membership as high-bit-prefix equality,
  which is exactly what `net.IPNet.Contains` computes for canonical masks).
* `internal/handlers` execution handler — the pre-execution SSRF gate, the
  redirect-checking closure installed as `http.Client.CheckRedirect`, the
  body-attachment rule and the response-header flattening.
* `agent/executor.go` — the local agent's execution pipeline (no SSRF
  validation), its body-attachment rule and header copying.
* the collection-item CRUD layer's allowed-method check.

The Go `net/http` client redirect loop (which calls `CheckRedirect` with
`via` = the list of requests already made, oldest first, the initial
request included) is embedded as the fuel-indexed `clientLoop`.
-/

/-- `strings.ToLower`, character-wise (the strings compared in this
development are ASCII, where Go's and Lean's per-character lowercase
agree). -/
def strToLower (s : String) : String := ⟨s.data.map Char.toLower⟩

/-- Character-list prefix test. -/
def listStartsWith : List Char → List Char → Bool
  | _, [] => true
  | [], _ :: _ => false
  | c :: cs, d :: ds => c == d && listStartsWith cs ds

/-- `strings.HasPrefix`. -/
def strStartsWith (s p : String) : Bool := listStartsWith s.data p.data

/-- An IP address: IPv4 as a 32-bit value, IPv6 as a 128-bit value. -/
inductive IP where
  | v4 (addr : Nat)
  | v6 (addr : Nat)
  deriving DecidableEq, Repr

/-- CIDR membership for IPv4: the high `bits` bits of `a` equal those of
`base` (this is what `net.IPNet.Contains` computes). -/
def in4 (a base bits : Nat) : Bool :=
  a / 2 ^ (32 - bits) == base / 2 ^ (32 - bits)

/-- CIDR membership for IPv6. -/
def in6 (a base bits : Nat) : Bool :=
  a / 2 ^ (128 - bits) == base / 2 ^ (128 - bits)

/-- Embedding of Go `net.IP.IsLoopback`: 127.0.0.0/8 for IPv4, ::1 for IPv6. -/
def ipIsLoopback : IP → Bool
  | .v4 a => in4 a (127 * 2 ^ 24) 8
  | .v6 a => a == 1

/-- Embedding of Go `net.IP.IsLinkLocalUnicast`: 169.254.0.0/16, fe80::/10. -/
def ipIsLinkLocalUnicast : IP → Bool
  | .v4 a => in4 a (169 * 2 ^ 24 + 254 * 2 ^ 16) 16
  | .v6 a => in6 a (0xfe80 * 2 ^ 112) 10

/-- Embedding of Go `net.IP.IsLinkLocalMulticast`: 224.0.0.0/24, ff02::/16. -/
def ipIsLinkLocalMulticast : IP → Bool
  | .v4 a => in4 a (224 * 2 ^ 24) 24
  | .v6 a => in6 a (0xff02 * 2 ^ 112) 16

/-- The `privateRanges` CIDR list of `isPrivateIP` (ssrf.go lines 76-96):
10.0.0.0/8, 172.16.0.0/12, 192.168.0.0/16, 169.254.0.0/16 (listed twice in
the source), fc00::/7, fe80::/10, ::1/128, 100.64.0.0/10.  A v4 network
never contains a v6 address and vice versa (`Contains` compares after a
failed `To4`), so the check splits by family. -/
def inPrivateRanges : IP → Bool
  | .v4 a =>
      in4 a (10 * 2 ^ 24) 8 ||
      in4 a (172 * 2 ^ 24 + 16 * 2 ^ 16) 12 ||
      in4 a (192 * 2 ^ 24 + 168 * 2 ^ 16) 16 ||
      in4 a (169 * 2 ^ 24 + 254 * 2 ^ 16) 16 ||
      in4 a (100 * 2 ^ 24 + 64 * 2 ^ 16) 10
  | .v6 a =>
      in6 a (0xfc00 * 2 ^ 112) 7 ||
      in6 a (0xfe80 * 2 ^ 112) 10 ||
      in6 a 1 128

/-- The explicit cloud-metadata list of `isPrivateIP` (ssrf.go lines 98-109):
169.254.169.254 and fd00:ec2::254 (numeric value of the canonical text the
source compares `ip.String()` against). -/
def isMetadataIP : IP → Bool
  | .v4 a => a == 169 * 2 ^ 24 + 254 * 2 ^ 16 + 169 * 2 ^ 8 + 254
  | .v6 a => a == 0xfd000ec2 * 2 ^ 96 + 0x254

/-- Embedding of `isPrivateIP` (ssrf.go lines 64-112): loopback, link-local
unicast/multicast, the CIDR list, then the metadata list; the source's early
returns are the boolean disjunction. -/
def isPrivateIP (ip : IP) : Bool :=
  ipIsLoopback ip || ipIsLinkLocalUnicast ip || ipIsLinkLocalMulticast ip ||
    inPrivateRanges ip || isMetadataIP ip

/-- Embedding of `isLocalhost` (ssrf.go lines 54-62). -/
def isLocalhost (hostname : String) : Bool :=
  strToLower hostname == "localhost" ||
  strToLower hostname == "127.0.0.1" ||
  strToLower hostname == "::1" ||
  strStartsWith (strToLower hostname) "127." ||
  strToLower hostname == "0.0.0.0" ||
  strToLower hostname == "[::]"

/-- The outcome of `ValidateExecutionURL`: one constructor per distinct
`return` site of ssrf.go lines 11-52 (each non-`allowed` constructor is one
of the `fmt.Errorf` error returns, `allowed` is the final `return nil`). -/
inductive Verdict where
  | allowed
  | blockedScheme (scheme : String)
  | emptyHost
  | blockedHost
  | resolutionFailed
  | blockedIP (ip : IP)
  deriving DecidableEq, Repr

/-- Embedding of `ValidateExecutionURL` (ssrf.go lines 11-52) after
`url.Parse`: `scheme` and `hostname` are `parsed.Scheme` and
`parsed.Hostname()`. DNS (`net.LookupIP`) is the explicit `resolve`
parameter: `none` models a resolution error, `some ips` the resolved set.
The source's nested `if isLocalhost { if !allowLocalhost { return err } }`
(with no other effect) is the single conjoined condition here, and its loop
over resolved addresses returns on the first private one, which is
`List.find?`. -/
def ValidateExecutionURL (resolve : String → Option (List IP))
    (scheme hostname : String) (allowLocalhost allowPrivateIPs : Bool) :
    Verdict :=
  if strToLower scheme != "http" && strToLower scheme != "https" then
    .blockedScheme scheme
  else if hostname == "" then .emptyHost
  else if isLocalhost hostname && !allowLocalhost then .blockedHost
  else
    match resolve hostname with
    | none => .resolutionFailed
    | some ips =>
        match ips.find? (fun ip => isPrivateIP ip && !allowPrivateIPs) with
        | some ip => .blockedIP ip
        | none => .allowed

/-- The address ranges enumerated by the spec sentence behind C1:
127.0.0.0/8, 10.0.0.0/8, 172.16.0.0/12, 192.168.0.0/16, 169.254.0.0/16,
::1, fc00::/7, fe80::/10.  (Statement-side predicate, not source code.) -/
def inClaimRanges : IP → Bool
  | .v4 a =>
      in4 a (127 * 2 ^ 24) 8 ||
      in4 a (10 * 2 ^ 24) 8 ||
      in4 a (172 * 2 ^ 24 + 16 * 2 ^ 16) 12 ||
      in4 a (192 * 2 ^ 24 + 168 * 2 ^ 16) 16 ||
      in4 a (169 * 2 ^ 24 + 254 * 2 ^ 16) 16
  | .v6 a =>
      a == 1 ||
      in6 a (0xfc00 * 2 ^ 112) 7 ||
      in6 a (0xfe80 * 2 ^ 112) 10

/-- `strings.ToUpper`, character-wise (ASCII inputs). -/
def strToUpper (s : String) : String := ⟨s.data.map Char.toUpper⟩

/-- A URL as seen by the redirect logic: the components the Validator
inspects (`req.URL.String()` re-parses to these). -/
structure ParsedURL where
  scheme : String
  host : String
  deriving DecidableEq, Repr

/-- A final (non-redirect) HTTP response: status, header multimap, body. -/
structure FinalResp where
  status : Nat
  headers : List (String × List String)
  body : String
  deriving DecidableEq, Repr

/-- A target server's answer for one request: an HTTP redirect to a
location, or a final response. -/
inductive HopResp where
  | redirect (loc : ParsedURL)
  | final (resp : FinalResp)
  deriving DecidableEq, Repr

/-- Errors raised by the execution pipeline's redirect policy:
`redirectLimit n` is Go's `stopped after n redirects` error,
`redirectBlocked v` is the `redirect blocked: ...` error wrapping (via
`%w`) the Validator's rejection `v`, and `fuelExhausted` is the model's
recursion bound (never hit in the concrete runs below). -/
inductive EngineErr where
  | redirectLimit (n : Nat)
  | redirectBlocked (v : Verdict)
  | fuelExhausted
  deriving DecidableEq, Repr

/-- Embedding of the `CheckRedirect` closure the public service installs on
its HTTP client (execution handler, part_004 lines 205-214): first the hop
limit (`len(via) >= MaxRedirects`), then SSRF validation of the redirect
target with the handler's own policy flags. -/
def serviceCheckRedirect (resolve : String → Option (List IP))
    (allowLocalhost allowPrivateIPs : Bool) (maxRedirects : Nat)
    (req : ParsedURL) (via : List ParsedURL) : Option EngineErr :=
  if via.length ≥ maxRedirects then some (.redirectLimit maxRedirects)
  else
    match ValidateExecutionURL resolve req.scheme req.host allowLocalhost
        allowPrivateIPs with
    | .allowed => none
    | v => some (.redirectBlocked v)

/-- Embedding of the `net/http` client redirect loop (`Client.do`): the
requests made so far are accumulated in `reqs`, oldest first, the initial
request included; `CheckRedirect` is consulted for every request except the
first, before it is sent.  Returns the list of requests actually made (one
socket per element) and the outcome.  `fuel` bounds the recursion only. -/
def clientLoop (check : ParsedURL → List ParsedURL → Option EngineErr)
    (server : ParsedURL → HopResp) :
    Nat → ParsedURL → List ParsedURL →
      List ParsedURL × Except EngineErr FinalResp
  | 0, _, reqs => (reqs, .error .fuelExhausted)
  | fuel + 1, req, [] =>
      match server req with
      | .final resp => ([req], .ok resp)
      | .redirect loc => clientLoop check server fuel loc [req]
  | fuel + 1, req, r :: rs =>
      match check req (r :: rs) with
      | some e => (r :: rs, .error e)
      | none =>
          match server req with
          | .final resp => (r :: rs ++ [req], .ok resp)
          | .redirect loc => clientLoop check server fuel loc (r :: rs ++ [req])

/-- The header flattening of the public service's execution handler
(part_004 lines 251-257): `responseHeaders[key] = values[0]` for each header
with at least one value — a single-valued map keeping only the first
value. -/
def serviceResponseHeaders (hdrs : List (String × List String)) :
    List (String × String) :=
  hdrs.filterMap (fun kv =>
    match kv.2 with
    | [] => none
    | v :: _ => some (kv.1, v))

/-- The header copying of the agent's executor (agent/executor.go lines
93-96): `responseHeaders[key] = values` — all values kept. -/
def agentResponseHeaders (hdrs : List (String × List String)) :
    List (String × List String) :=
  hdrs.map (fun kv => (kv.1, kv.2))

/-- `models.ExecutionResponse` as the public service returns it: status,
single-valued header map, body (models.go lines 73-78; duration omitted —
wall-clock time is outside the model). -/
structure ExecutionResponse where
  status : Nat
  headers : List (String × String)
  body : String
  deriving DecidableEq, Repr

/-- Outcome of the public service's execute endpoint: the 403
`ssrf_protection` rejection, a 200 with the normalized response, or the 502
`execution_error`. -/
inductive ServiceOutcome where
  | ssrfBlocked (v : Verdict)
  | executed (r : ExecutionResponse)
  | executionError (e : EngineErr)
  deriving DecidableEq, Repr

/-- Embedding of the public service's execute path (part_004 lines 152-199
and 201-264): validate the initial URL — on rejection return the
`ssrf_protection` error without opening any socket — then run the HTTP
client whose redirect policy is `serviceCheckRedirect` with the same flags.
Returns the list of requests actually sent plus the outcome. -/
def serviceExecute (resolve : String → Option (List IP))
    (allowLocalhost allowPrivateIPs : Bool) (maxRedirects : Nat)
    (server : ParsedURL → HopResp) (fuel : Nat) (u : ParsedURL) :
    List ParsedURL × ServiceOutcome :=
  match ValidateExecutionURL resolve u.scheme u.host allowLocalhost
      allowPrivateIPs with
  | .allowed =>
      let r := clientLoop
        (serviceCheckRedirect resolve allowLocalhost allowPrivateIPs
          maxRedirects) server fuel u []
      (r.1,
        match r.2 with
        | .ok f => .executed ⟨f.status, serviceResponseHeaders f.headers, f.body⟩
        | .error e => .executionError e)
  | v => ([], .ssrfBlocked v)

/-- Concrete resolver for witness runs: 10.0.0.5 resolves to itself (a
private address), every other hostname to the public address 8.8.8.8. -/
def witnessResolve : String → Option (List IP) := fun h =>
  if h == "10.0.0.5" then some [IP.v4 (10 * 2 ^ 24 + 5)]
  else some [IP.v4 (8 * 2 ^ 24 + 8 * 2 ^ 16 + 8 * 2 ^ 8 + 8)]

/-- Concrete server for the C2 witness: example.com redirects once to
pub2.example, everything else answers 200. -/
def witnessServer : ParsedURL → HopResp := fun p =>
  if p.host == "example.com" then .redirect ⟨"http", "pub2.example"⟩
  else .final ⟨200, [], ""⟩

/-- Concrete server issuing six sequential redirects:
h0 → h1 → h2 → h3 → h4 → h5 → h6, then 200 at h6. -/
def chainServer : ParsedURL → HopResp := fun p =>
  if p.host == "h0" then .redirect ⟨"http", "h1"⟩
  else if p.host == "h1" then .redirect ⟨"http", "h2"⟩
  else if p.host == "h2" then .redirect ⟨"http", "h3"⟩
  else if p.host == "h3" then .redirect ⟨"http", "h4"⟩
  else if p.host == "h4" then .redirect ⟨"http", "h5"⟩
  else if p.host == "h5" then .redirect ⟨"http", "h6"⟩
  else .final ⟨200, [], ""⟩

/-- A resolver under which every hostname is public (8.8.8.8). -/
def publicResolve : String → Option (List IP) := fun _ =>
  some [IP.v4 (8 * 2 ^ 24 + 8 * 2 ^ 16 + 8 * 2 ^ 8 + 8)]

/-- The allowed-method lookup of the collection-item CRUD layer (item
creation and update, part_003 lines 106-112 and 306-312): an exact-match
set of the five verbs. -/
def storeAllowedMethod (m : String) : Bool :=
  m == "GET" || m == "POST" || m == "PUT" || m == "PATCH" || m == "DELETE"

/-- HTTP token characters, as `net/http`'s method validation accepts them
(RFC 7230 tokens): alphanumerics and the listed specials; code points 39
and 96 are the single quote and the backquote. -/
def isTokenChar (c : Char) : Bool :=
  c.isAlphanum || "!#$%&*+-.^_|~".data.contains c ||
    c.toNat == 39 || c.toNat == 96

/-- Go `net/http.validMethod`: non-empty and all token characters. -/
def validMethod (m : String) : Bool := m != "" && m.data.all isTokenChar

/-- The agent's `ExecuteRequest` payload (part_001 lines 8-13). -/
structure ExecuteRequest where
  method : String
  url : String
  headers : List (String × String)
  body : String
  deriving DecidableEq, Repr

/-- The outbound request the engine hands to the transport: method, URL,
headers, and whether a body reader was attached. -/
structure BuiltRequest where
  method : String
  url : String
  headers : List (String × String)
  hasBody : Bool
  deriving DecidableEq, Repr

/-- Result of building the outbound request (`http.NewRequest`): the built
request, or the error `http.NewRequest` returns. -/
inductive BuildResult where
  | ok (r : BuiltRequest)
  | err (msg : String)
  deriving DecidableEq, Repr

/-- The body-support test of the agent's executor (agent/executor.go lines
57-58): upper-cased method is POST, PUT, PATCH or DELETE. -/
def agentSupportsBody (method : String) : Bool :=
  strToUpper method == "POST" || strToUpper method == "PUT" ||
  strToUpper method == "PATCH" || strToUpper method == "DELETE"

/-- agent/executor.go line 60: a body reader is attached iff the supplied
body is non-empty and the method supports a body. -/
def agentHasBody (method bodyStr : String) : Bool :=
  bodyStr != "" && agentSupportsBody method

/-- The identical body-support test of the public service's execution
handler (part_004 lines 219-220). -/
def serviceSupportsBody (method : String) : Bool :=
  strToUpper method == "POST" || strToUpper method == "PUT" ||
  strToUpper method == "PATCH" || strToUpper method == "DELETE"

/-- part_004 line 222: body attached iff non-empty and method supports it. -/
def serviceHasBody (method bodyStr : String) : Bool :=
  bodyStr != "" && serviceSupportsBody method

/-- Embedding of the agent executor's request-building phase
(agent/executor.go lines 55-73): compute body attachment, then
`http.NewRequest` — which substitutes GET for an empty method and fails
only when the method is not a valid HTTP token.  No check against the five
allowed verbs happens anywhere on this path. -/
def agentBuildRequest (execReq : ExecuteRequest) : BuildResult :=
  let hasBody := agentHasBody execReq.method execReq.body
  let m := if execReq.method == "" then "GET" else execReq.method
  if validMethod m then .ok ⟨m, execReq.url, execReq.headers, hasBody⟩
  else .err "failed to create request: invalid method"

/-- Helper: with `allowPrivateIPs = false`, a hostname resolving to a
non-empty list of addresses all classified private is never Allowed
(whatever the earlier checks decide, no branch of `ValidateExecutionURL`
yields `allowed` then). -/
theorem validate_not_allowed_of_all_private
    (resolve : String → Option (List IP)) (scheme hostname : String)
    (allowLocalhost : Bool) (ips : List IP)
    (hres : resolve hostname = some ips) (hne : ips ≠ [])
    (hall : ∀ ip ∈ ips, isPrivateIP ip = true) :
    ValidateExecutionURL resolve scheme hostname allowLocalhost false ≠
      .allowed := by
  have hfind : (ips.find? (fun ip => isPrivateIP ip)).isSome := by
    rw [List.find?_isSome]
    obtain ⟨x, hx⟩ := List.exists_mem_of_ne_nil ips hne
    exact ⟨x, hx, hall x hx⟩
  unfold ValidateExecutionURL
  split
  · simp
  · split
    · simp
    · split
      · simp
      · rw [hres]
        cases hf : ips.find? (fun ip => isPrivateIP ip) with
        | none => rw [hf] at hfind; simp at hfind
        | some ip => simp [hf]

/-- Every address in the ranges listed by the spec is classified private by
the source's `isPrivateIP`. -/
theorem inClaimRanges_isPrivateIP (ip : IP) (h : inClaimRanges ip = true) :
    isPrivateIP ip = true := by
  cases ip with
  | v4 a =>
      simp only [inClaimRanges, Bool.or_eq_true] at h
      simp only [isPrivateIP, ipIsLoopback, ipIsLinkLocalUnicast,
        ipIsLinkLocalMulticast, inPrivateRanges, isMetadataIP,
        Bool.or_eq_true]
      tauto
  | v6 a =>
      simp only [inClaimRanges, Bool.or_eq_true] at h
      simp only [isPrivateIP, ipIsLoopback, ipIsLinkLocalUnicast,
        ipIsLinkLocalMulticast, inPrivateRanges, isMetadataIP,
        Bool.or_eq_true]
      tauto

/-- C1: a URL whose hostname resolves to a non-empty set of addresses all
inside 127.0.0.0/8, 10.0.0.0/8, 172.16.0.0/12, 192.168.0.0/16,
169.254.0.0/16, ::1, fc00::/7 or fe80::/10 is never Allowed by
`ValidateExecutionURL` with `allowPrivateIPs = false`, for either value of
`allowLocalhost` (and any scheme). -/
theorem C1_private_ranges_blocked (resolve : String → Option (List IP))
    (scheme hostname : String) (allowLocalhost : Bool) (ips : List IP)
    (hres : resolve hostname = some ips) (hne : ips ≠ [])
    (hall : ∀ ip ∈ ips, inClaimRanges ip = true) :
    ValidateExecutionURL resolve scheme hostname allowLocalhost false ≠
      .allowed :=
  validate_not_allowed_of_all_private resolve scheme hostname allowLocalhost
    ips hres hne (fun ip hip => inClaimRanges_isPrivateIP ip (hall ip hip))

/-- Witness for C1: the host 10.0.0.5 resolving to the single address
10.0.0.5 is blocked. -/
theorem C1_witness :
    ValidateExecutionURL (fun _ => some [IP.v4 (10 * 2 ^ 24 + 5)])
      "http" "10.0.0.5" true false ≠ .allowed :=
  C1_private_ranges_blocked (fun _ => some [IP.v4 (10 * 2 ^ 24 + 5)])
    "http" "10.0.0.5" true [IP.v4 (10 * 2 ^ 24 + 5)] rfl (by decide)
    (by decide)

/-- C3: for any URL whose scheme is not http or https (case-insensitively),
`ValidateExecutionURL` returns the BlockedScheme rejection, for every
resolver and every combination of policy flags; in particular the result is
identical across all four flag combinations. -/
theorem C3_scheme_blocked_flag_independent
    (scheme hostname : String)
    (hs : strToLower scheme ≠ "http" ∧ strToLower scheme ≠ "https") :
    (∀ (resolve : String → Option (List IP)) (al aps : Bool),
        ValidateExecutionURL resolve scheme hostname al aps =
          .blockedScheme scheme) ∧
    (∀ (resolve : String → Option (List IP)) (al aps al' aps' : Bool),
        ValidateExecutionURL resolve scheme hostname al aps =
          ValidateExecutionURL resolve scheme hostname al' aps') := by
  have hcond : (strToLower scheme != "http" && strToLower scheme != "https") =
      true := by
    simp only [Bool.and_eq_true, bne_iff_ne]
    exact hs
  constructor
  · intro resolve al aps
    unfold ValidateExecutionURL
    rw [if_pos hcond]
  · intro resolve al aps al' aps'
    unfold ValidateExecutionURL
    rw [if_pos hcond, if_pos hcond]

/-- Witness for C3: file://x is rejected with BlockedScheme, and the verdict
is the same for two different flag combinations. -/
theorem C3_witness :
    ValidateExecutionURL (fun _ => none) "file" "x" false false =
        .blockedScheme "file" ∧
    ValidateExecutionURL (fun _ => none) "file" "x" false false =
      ValidateExecutionURL (fun _ => none) "file" "x" true true :=
  ⟨(C3_scheme_blocked_flag_independent "file" "x" (by decide)).1
      (fun _ => none) false false,
   (C3_scheme_blocked_flag_independent "file" "x" (by decide)).2
      (fun _ => none) false false true true⟩

/-- C4: http://169.254.169.254/... with `allowPrivateIPs = false` is
rejected with a BlockedIP verdict naming 169.254.169.254 (the resolver
returns the literal address itself), for either value of `allowLocalhost`. -/
theorem C4_metadata_blocked (resolve : String → Option (List IP))
    (allowLocalhost : Bool)
    (hres : resolve "169.254.169.254" =
      some [IP.v4 (169 * 2 ^ 24 + 254 * 2 ^ 16 + 169 * 2 ^ 8 + 254)]) :
    ValidateExecutionURL resolve "http" "169.254.169.254" allowLocalhost
        false =
      .blockedIP (IP.v4 (169 * 2 ^ 24 + 254 * 2 ^ 16 + 169 * 2 ^ 8 + 254)) := by
  unfold ValidateExecutionURL
  rw [if_neg (by decide), if_neg (by decide), if_neg (by
    cases allowLocalhost <;> decide), hres]
  rfl

/-- Witness for C4: evaluated with the literal resolver, for both values of
the localhost flag. -/
theorem C4_witness :
    (ValidateExecutionURL
        (fun _ => some [IP.v4 (169 * 2 ^ 24 + 254 * 2 ^ 16 + 169 * 2 ^ 8 + 254)])
        "http" "169.254.169.254" true false =
      .blockedIP (IP.v4 (169 * 2 ^ 24 + 254 * 2 ^ 16 + 169 * 2 ^ 8 + 254))) ∧
    (ValidateExecutionURL
        (fun _ => some [IP.v4 (169 * 2 ^ 24 + 254 * 2 ^ 16 + 169 * 2 ^ 8 + 254)])
        "http" "169.254.169.254" false false =
      .blockedIP (IP.v4 (169 * 2 ^ 24 + 254 * 2 ^ 16 + 169 * 2 ^ 8 + 254))) :=
  ⟨C4_metadata_blocked _ true rfl, C4_metadata_blocked _ false rfl⟩

/-- C6: when the hostname textually matches a localhost alias and
`allowLocalhost = false`, `ValidateExecutionURL` returns BlockedHost for
every resolver — i.e. before any DNS resolution is attempted — given an
http/https scheme. -/
theorem C6_localhost_blocked_before_dns
    (resolve : String → Option (List IP)) (scheme hostname : String)
    (aps : Bool)
    (hs : strToLower scheme = "http" ∨ strToLower scheme = "https")
    (hloc : isLocalhost hostname = true) :
    ValidateExecutionURL resolve scheme hostname false aps = .blockedHost := by
  have hne : (hostname == "") ≠ true := by
    intro h
    rw [beq_iff_eq] at h
    rw [h] at hloc
    simp [isLocalhost, strToLower, strStartsWith, listStartsWith] at hloc
  unfold ValidateExecutionURL
  rw [if_neg (by
      simp only [Bool.and_eq_true, bne_iff_ne]
      tauto),
    if_neg hne, if_pos (by rw [hloc]; rfl)]

/-- Witness for C6: http://localhost with a resolver that would fail —
the textual check fires first, so the verdict is BlockedHost anyway. -/
theorem C6_witness :
    ValidateExecutionURL (fun _ => none) "http" "localhost" false true =
      .blockedHost :=
  C6_localhost_blocked_before_dns (fun _ => none) "http" "localhost" true
    (Or.inl (by decide)) (by decide)

/-- C10: with `allowLocalhost = true` and `allowPrivateIPs = false`, any URL
whose hostname resolves to a non-empty set of addresses all classified
private (loopback included) is still blocked — the localhost flag only
disables the textual hostname check; and actually permitting such a target
additionally requires `allowPrivateIPs = true`, with which the same URL is
Allowed. -/
theorem C10_allowLocalhost_not_sufficient :
    (∀ (resolve : String → Option (List IP)) (scheme hostname : String)
        (ips : List IP), resolve hostname = some ips → ips ≠ [] →
        (∀ ip ∈ ips, isPrivateIP ip = true) →
        ValidateExecutionURL resolve scheme hostname true false ≠ .allowed) ∧
    (∀ (resolve : String → Option (List IP)) (scheme hostname : String)
        (ips : List IP),
        (strToLower scheme = "http" ∨ strToLower scheme = "https") →
        hostname ≠ "" → resolve hostname = some ips →
        ValidateExecutionURL resolve scheme hostname true true = .allowed) := by
  constructor
  · intro resolve scheme hostname ips hres hne hall
    exact validate_not_allowed_of_all_private resolve scheme hostname true
      ips hres hne hall
  · intro resolve scheme hostname ips hs hne hres
    unfold ValidateExecutionURL
    rw [if_neg (by
        simp only [Bool.and_eq_true, bne_iff_ne]
        tauto),
      if_neg (by simp [hne]), if_neg (by simp), hres]
    have hfind : ips.find? (fun _ : IP => false) = none := by
      rw [List.find?_eq_none]
      intro x _
      simp
    simp [hfind]

/-- Witness for C10: http://localhost resolving to 127.0.0.1 is blocked with
flags (allowLocalhost = true, allowPrivateIPs = false) and allowed with
(true, true). -/
theorem C10_witness :
    (ValidateExecutionURL (fun _ => some [IP.v4 (127 * 2 ^ 24 + 1)])
        "http" "localhost" true false ≠ .allowed) ∧
    (ValidateExecutionURL (fun _ => some [IP.v4 (127 * 2 ^ 24 + 1)])
        "http" "localhost" true true = .allowed) :=
  ⟨C10_allowLocalhost_not_sufficient.1 _ "http" "localhost"
      [IP.v4 (127 * 2 ^ 24 + 1)] rfl (by decide) (by decide),
   C10_allowLocalhost_not_sufficient.2 _ "http" "localhost"
      [IP.v4 (127 * 2 ^ 24 + 1)] (Or.inl (by decide)) (by decide) rfl⟩

/-- Helper: in any `clientLoop` run, every request except the first passed
the redirect check at the moment it was about to be sent. -/
theorem clientLoop_followed_all_checked
    (check : ParsedURL → List ParsedURL → Option EngineErr)
    (server : ParsedURL → HopResp) (P : ParsedURL → Prop)
    (hcheck : ∀ req via, check req via = none → P req) :
    ∀ (fuel : Nat) (req : ParsedURL) (reqs : List ParsedURL),
      (∀ x ∈ reqs.drop 1, P x) →
      ∀ x ∈ (clientLoop check server fuel req reqs).1.drop 1, P x := by
  intro fuel
  induction fuel with
  | zero =>
      intro req reqs hinv x hx
      exact hinv x (by simpa [clientLoop] using hx)
  | succ n ih =>
      intro req reqs hinv x hx
      cases reqs with
      | nil =>
          cases hs : server req with
          | final resp =>
              simp [clientLoop, hs] at hx
          | redirect loc =>
              simp only [clientLoop, hs] at hx
              exact ih loc [req] (by simp) x hx
      | cons r rs =>
          cases hc : check req (r :: rs) with
          | some e =>
              simp only [clientLoop, hc] at hx
              exact hinv x hx
          | none =>
              have hreq : P req := hcheck req (r :: rs) hc
              have hinv' : ∀ y ∈ (r :: rs ++ [req]).drop 1, P y := by
                intro y hy
                simp only [List.drop_one, List.tail_cons] at hy
                rcases List.mem_append.mp hy with h | h
                · exact hinv y (by simpa using h)
                · rw [List.mem_singleton.mp h]
                  exact hreq
              cases hs : server req with
              | final resp =>
                  simp only [clientLoop, hc, hs] at hx
                  exact hinv' x hx
              | redirect loc =>
                  simp only [clientLoop, hc, hs] at hx
                  exact ih loc (r :: rs ++ [req]) hinv' x hx

/-- C2: on the public service, a socket is opened for hop 0 only if the
initial URL passed the Validator; every followed redirect hop passed the
Validator with the same policy flags; and a redirect target rejected by the
Validator (within the hop limit) aborts with the redirect-blocked error
carrying the verdict. -/
theorem C2_validator_gates_every_hop (resolve : String → Option (List IP))
    (allowLocalhost allowPrivateIPs : Bool) (maxRedirects : Nat)
    (server : ParsedURL → HopResp) (fuel : Nat) (u : ParsedURL) :
    ((serviceExecute resolve allowLocalhost allowPrivateIPs maxRedirects
        server fuel u).1 ≠ [] →
      ValidateExecutionURL resolve u.scheme u.host allowLocalhost
        allowPrivateIPs = .allowed) ∧
    (∀ x ∈ (serviceExecute resolve allowLocalhost allowPrivateIPs
        maxRedirects server fuel u).1.drop 1,
      ValidateExecutionURL resolve x.scheme x.host allowLocalhost
        allowPrivateIPs = .allowed) ∧
    (∀ (req : ParsedURL) (via : List ParsedURL), via.length < maxRedirects →
      ValidateExecutionURL resolve req.scheme req.host allowLocalhost
          allowPrivateIPs ≠ .allowed →
      serviceCheckRedirect resolve allowLocalhost allowPrivateIPs
          maxRedirects req via =
        some (.redirectBlocked (ValidateExecutionURL resolve req.scheme
          req.host allowLocalhost allowPrivateIPs))) := by
  refine ⟨?_, ?_, ?_⟩
  · intro htrace
    by_contra hv
    apply htrace
    unfold serviceExecute
    cases hval : ValidateExecutionURL resolve u.scheme u.host allowLocalhost
        allowPrivateIPs with
    | allowed => exact absurd hval hv
    | blockedScheme s => rfl
    | emptyHost => rfl
    | blockedHost => rfl
    | resolutionFailed => rfl
    | blockedIP ip => rfl
  · intro x hx
    unfold serviceExecute at hx
    cases hval : ValidateExecutionURL resolve u.scheme u.host allowLocalhost
        allowPrivateIPs with
    | allowed =>
        rw [hval] at hx
        refine clientLoop_followed_all_checked
          (serviceCheckRedirect resolve allowLocalhost allowPrivateIPs
            maxRedirects) server
          (fun y => ValidateExecutionURL resolve y.scheme y.host
            allowLocalhost allowPrivateIPs = .allowed)
          ?_ fuel u [] (by simp) x hx
        intro req via hnone
        unfold serviceCheckRedirect at hnone
        by_cases hlen : via.length ≥ maxRedirects
        · rw [if_pos hlen] at hnone
          exact absurd hnone (by simp)
        · rw [if_neg hlen] at hnone
          cases hvv : ValidateExecutionURL resolve req.scheme req.host
              allowLocalhost allowPrivateIPs with
          | allowed => rfl
          | blockedScheme s => rw [hvv] at hnone; simp at hnone
          | emptyHost => rw [hvv] at hnone; simp at hnone
          | blockedHost => rw [hvv] at hnone; simp at hnone
          | resolutionFailed => rw [hvv] at hnone; simp at hnone
          | blockedIP ip => rw [hvv] at hnone; simp at hnone
    | blockedScheme s => rw [hval] at hx; simp at hx
    | emptyHost => rw [hval] at hx; simp at hx
    | blockedHost => rw [hval] at hx; simp at hx
    | resolutionFailed => rw [hval] at hx; simp at hx
    | blockedIP ip => rw [hval] at hx; simp at hx
  · intro req via hlen hv
    unfold serviceCheckRedirect
    rw [if_neg (by omega)]
    cases hvv : ValidateExecutionURL resolve req.scheme req.host
        allowLocalhost allowPrivateIPs with
    | allowed => exact absurd hvv hv
    | blockedScheme s => rfl
    | emptyHost => rfl
    | blockedHost => rfl
    | resolutionFailed => rfl
    | blockedIP ip => rfl

/-- Witness for C2: in a concrete two-hop run the followed redirect target
passed the Validator, and a redirect to the private 10.0.0.5 under the hop
limit yields the redirect-blocked error carrying the BlockedIP verdict. -/
theorem C2_witness :
    (ValidateExecutionURL witnessResolve "http" "pub2.example" false false =
      .allowed) ∧
    (serviceCheckRedirect witnessResolve false false 5 ⟨"http", "10.0.0.5"⟩
        [⟨"http", "example.com"⟩] =
      some (.redirectBlocked (.blockedIP (IP.v4 (10 * 2 ^ 24 + 5))))) := by
  have h := C2_validator_gates_every_hop witnessResolve false false 5
    witnessServer 10 ⟨"http", "example.com"⟩
  refine ⟨h.2.1 ⟨"http", "pub2.example"⟩ (by decide), ?_⟩
  have h3 := h.2.2 ⟨"http", "10.0.0.5"⟩ [⟨"http", "example.com"⟩]
    (by decide) (by decide)
  rw [show ValidateExecutionURL witnessResolve "http" "10.0.0.5" false false =
    .blockedIP (IP.v4 (10 * 2 ^ 24 + 5)) from by decide] at h3
  exact h3

/-- C5 counterexample: with MAX_REDIRECTS = 5 against a target issuing six
sequential redirects, the run fails with the `stopped after 5 redirects`
error, but the requests actually sent are h0..h4 — the initial request plus
exactly 4 followed redirect hops, not 5: `CheckRedirect`'s `via` includes
the initial request, so `len(via) >= 5` already aborts the 5th redirect. -/
theorem C5_counterexample :
    ((serviceExecute publicResolve false false 5 chainServer 20
        ⟨"http", "h0"⟩).2 = .executionError (.redirectLimit 5)) ∧
    ((serviceExecute publicResolve false false 5 chainServer 20
        ⟨"http", "h0"⟩).1 =
      [⟨"http", "h0"⟩, ⟨"http", "h1"⟩, ⟨"http", "h2"⟩, ⟨"http", "h3"⟩,
        ⟨"http", "h4"⟩]) ∧
    ((serviceExecute publicResolve false false 5 chainServer 20
        ⟨"http", "h0"⟩).1.length - 1 ≠ 5) := by
  decide

/-- C5 amended: the six-redirect target with MAX_REDIRECTS = 5 fails with
the `stopped after 5 redirects` error after following exactly 4 redirect
hops (5 requests sent in total), never requesting the 5th redirect target
h5; and the hop-limit check is decided before any Validator classification:
once `via` holds 5 requests the limit error is returned for every resolver
and every flag combination. -/
theorem C5_redirect_limit_amended :
    ((serviceExecute publicResolve false false 5 chainServer 20
        ⟨"http", "h0"⟩).2 = .executionError (.redirectLimit 5)) ∧
    ((serviceExecute publicResolve false false 5 chainServer 20
        ⟨"http", "h0"⟩).1 =
      [⟨"http", "h0"⟩, ⟨"http", "h1"⟩, ⟨"http", "h2"⟩, ⟨"http", "h3"⟩,
        ⟨"http", "h4"⟩]) ∧
    (∀ (resolve : String → Option (List IP)) (al aps : Bool)
        (req : ParsedURL) (via : List ParsedURL), via.length ≥ 5 →
      serviceCheckRedirect resolve al aps 5 req via =
        some (.redirectLimit 5)) := by
  refine ⟨by decide, by decide, ?_⟩
  intro resolve al aps req via hlen
  unfold serviceCheckRedirect
  rw [if_pos hlen]

/-- Witness for the amended C5: the hop-limit error fires with a full `via`
even under a resolver that refuses to resolve anything. -/
theorem C5_amended_witness :
    serviceCheckRedirect (fun _ => none) true true 5 ⟨"http", "h5"⟩
      [⟨"http", "h0"⟩, ⟨"http", "h1"⟩, ⟨"http", "h2"⟩, ⟨"http", "h3"⟩,
        ⟨"http", "h4"⟩] = some (.redirectLimit 5) :=
  C5_redirect_limit_amended.2.2 (fun _ => none) true true ⟨"http", "h5"⟩
    [⟨"http", "h0"⟩, ⟨"http", "h1"⟩, ⟨"http", "h2"⟩, ⟨"http", "h3"⟩,
      ⟨"http", "h4"⟩] (by decide)

/-- C7 counterexample: the agent's engine accepts the caller-supplied
method OPTIONS — which is none of the five allowed verbs — and builds and
dispatches the request instead of rejecting it. -/
theorem C7_counterexample :
    (agentBuildRequest ⟨"OPTIONS", "http://x.example/", [], ""⟩ =
      .ok ⟨"OPTIONS", "http://x.example/", [], false⟩) ∧
    storeAllowedMethod "OPTIONS" = false := by
  decide

/-- C7 amended: the CRUD layer does enforce the five verbs for stored
items, and the public service's execute endpoint accepts no method
override; but the local agent's engine performs no verb check — it builds
the outbound request for any syntactically valid HTTP method token,
passing the method through unchanged. -/
theorem C7_method_enforcement_amended :
    (∀ m : String, storeAllowedMethod m = true →
      m = "GET" ∨ m = "POST" ∨ m = "PUT" ∨ m = "PATCH" ∨ m = "DELETE") ∧
    (∀ r : ExecuteRequest, r.method ≠ "" → validMethod r.method = true →
      agentBuildRequest r =
        .ok ⟨r.method, r.url, r.headers, agentHasBody r.method r.body⟩) := by
  constructor
  · intro m h
    simp only [storeAllowedMethod, Bool.or_eq_true, beq_iff_eq] at h
    tauto
  · intro r hne hv
    have h1 : (r.method == "") = false := by
      simpa [beq_eq_false_iff_ne] using hne
    simp [agentBuildRequest, h1, hv]

/-- Witness for the amended C7: PUT is one of the five verbs at the store,
and the agent builds an OPTIONS request untouched. -/
theorem C7_amended_witness :
    ("PUT" = "GET" ∨ "PUT" = "POST" ∨ "PUT" = "PUT" ∨ "PUT" = "PATCH" ∨
      "PUT" = "DELETE") ∧
    (agentBuildRequest ⟨"OPTIONS", "http://x.example/", [], "b"⟩ =
      .ok ⟨"OPTIONS", "http://x.example/", [],
        agentHasBody "OPTIONS" "b"⟩) :=
  ⟨C7_method_enforcement_amended.1 "PUT" (by decide),
   C7_method_enforcement_amended.2 ⟨"OPTIONS", "http://x.example/", [], "b"⟩
     (by decide) (by decide)⟩

/-- C8 counterexample: for a response header carrying the two values
a and b, the public service's flattening keeps only the first value — no
entry of its header map carries b — so the service response is not a
mapping to the ordered list of all values. -/
theorem C8_counterexample :
    (serviceResponseHeaders [("X-Test", ["a", "b"])] = [("X-Test", "a")]) ∧
    (∀ p ∈ serviceResponseHeaders [("X-Test", ["a", "b"])], p.2 ≠ "b") := by
  decide

/-- C8 amended: the local agent's /execute response does map each header
name to the ordered list of all its values, but the public service's
execute response maps each header name to its first value only
(string → string), dropping all further values. -/
theorem C8_headers_amended :
    (∀ hdrs : List (String × List String), agentResponseHeaders hdrs = hdrs) ∧
    (∀ (hdrs : List (String × List String)) (k v : String)
        (rest : List String), (k, v :: rest) ∈ hdrs →
      (k, v) ∈ serviceResponseHeaders hdrs) := by
  constructor
  · intro hdrs
    simp [agentResponseHeaders]
  · intro hdrs k v rest hmem
    simp only [serviceResponseHeaders, List.mem_filterMap]
    exact ⟨(k, v :: rest), hmem, rfl⟩

/-- Witness for the amended C8 at a concrete two-valued header. -/
theorem C8_amended_witness :
    (agentResponseHeaders [("X-Test", ["a", "b"])] = [("X-Test", ["a", "b"])]) ∧
    (("X-Test", "a") ∈ serviceResponseHeaders [("X-Test", ["a", "b"])]) :=
  ⟨C8_headers_amended.1 [("X-Test", ["a", "b"])],
   C8_headers_amended.2 [("X-Test", ["a", "b"])] "X-Test" "a" ["b"]
     (by decide)⟩

/-- C9: on both engines a body is attached only when the method is
(case-insensitively) POST, PUT, PATCH or DELETE and the supplied body is
non-empty; a GET request never carries a body even when one was supplied. -/
theorem C9_body_attachment :
    (∀ m b : String, serviceHasBody m b = true →
      b ≠ "" ∧ (strToUpper m = "POST" ∨ strToUpper m = "PUT" ∨
        strToUpper m = "PATCH" ∨ strToUpper m = "DELETE")) ∧
    (∀ m b : String, agentHasBody m b = true →
      b ≠ "" ∧ (strToUpper m = "POST" ∨ strToUpper m = "PUT" ∨
        strToUpper m = "PATCH" ∨ strToUpper m = "DELETE")) ∧
    (∀ m b : String, strToUpper m = "GET" →
      serviceHasBody m b = false ∧ agentHasBody m b = false) := by
  refine ⟨?_, ?_, ?_⟩
  · intro m b h
    simp only [serviceHasBody, serviceSupportsBody, Bool.and_eq_true,
      Bool.or_eq_true, bne_iff_ne, beq_iff_eq] at h
    tauto
  · intro m b h
    simp only [agentHasBody, agentSupportsBody, Bool.and_eq_true,
      Bool.or_eq_true, bne_iff_ne, beq_iff_eq] at h
    tauto
  · intro m b hm
    constructor
    · simp [serviceHasBody, serviceSupportsBody, hm]
    · simp [agentHasBody, agentSupportsBody, hm]

/-- Witness for C9: a lowercase post with body is recognized as
body-carrying on the service, and GET carries no body on either engine. -/
theorem C9_witness :
    ("x" ≠ "" ∧ (strToUpper "post" = "POST" ∨ strToUpper "post" = "PUT" ∨
      strToUpper "post" = "PATCH" ∨ strToUpper "post" = "DELETE")) ∧
    (serviceHasBody "GET" "x" = false ∧ agentHasBody "GET" "x" = false) :=
  ⟨C9_body_attachment.1 "post" "x" (by decide),
   C9_body_attachment.2.2 "GET" "x" (by decide)⟩
